import Mathlib

/-
Shallow embedding of the socket.io game server of judgegodwins/multiplayer-chess
(file `server/server.js`, given as src/unnamed/part_001 lines 1-135).

The server keeps a JavaScript `Map` called `rooms` from roomId to a room object
`{ roomId, players }`, plus the transport-level socket.io room membership
(`socket.join` / `socket.leave` / `socket.to(room).emit`).  We model:
  - the `rooms` map as an insertion-ordered association list (JS `Map.set`
    updates an existing key in place and appends new keys; `Map.delete`
    removes the entry; `Map.values()` iterates in insertion order);
  - socket.io group membership as an association list from roomId to the
    list of member socket ids (a socket.io room is a set of sockets);
  - `socket.data.username` as an association list from socket id to string;
  - socket ids and room ids as `Nat`; `uuidV4()` is modelled by a fresh-id
    counter `nextId` together with a ghost list `issued` of every id the
    generator has handed out, so that freshness is provable;
  - each event handler as a function from server state and event arguments
    to the new state, the list of per-recipient emits, the optional callback
    response, and a `crashed` flag recording whether the handler body threw
    (the only throw site is invoking a missing callback).
-/

namespace MultiplayerChess

/-- A player entry as stored in a room: `{ id: socket.id, username: socket.data?.username }`.
The username is `none` when `socket.data.username` was never set (JS `undefined`). -/
structure Participant where
  id : Nat
  username : Option String
deriving DecidableEq

/-- A value of the `rooms` map: `{ roomId, players }`. -/
structure Room where
  roomId : Nat
  players : List Participant
deriving DecidableEq

/-- Lookup in a JS `Map` modelled as an association list (`rooms.get(k)`). -/
def mapGet {α : Type} : List (Nat × α) → Nat → Option α
  | [], _ => none
  | p :: rest, k => if p.1 = k then some p.2 else mapGet rest k

/-- JS `Map.set(k, v)`: update an existing key in place, else append. -/
def mapSet {α : Type} : List (Nat × α) → Nat → α → List (Nat × α)
  | [], k, v => [(k, v)]
  | p :: rest, k, v => if p.1 = k then (k, v) :: rest else p :: mapSet rest k v

/-- JS `Map.delete(k)`: remove the entry with key `k`. -/
def mapDelete {α : Type} : List (Nat × α) → Nat → List (Nat × α)
  | [], _ => []
  | p :: rest, k => if p.1 = k then mapDelete rest k else p :: mapDelete rest k

/-- The whole server state. -/
structure ServerState where
  rooms : List (Nat × Room)
  groups : List (Nat × List Nat)
  userData : List (Nat × String)
  nextId : Nat
  issued : List Nat
deriving DecidableEq

/-- One per-recipient message emitted by the server (`socket.to(room).emit(...)`
expanded into one emit per member of the socket.io room other than the sender). -/
inductive Emit where
  | opponentJoined (dest : Nat) (room : Room)
  | move (dest : Nat) (payload : String)
  | playerDisconnected (dest : Nat) (p : Participant)
  | closeRoom (dest : Nat) (roomId : Nat)
deriving DecidableEq

/-- The value passed to a client callback: `callback(roomId)` in createRoom,
`callback({error: true, message})` or `callback(roomUpdate)` in joinRoom. -/
inductive Response where
  | roomId (r : Nat)
  | joinError (message : String)
  | joinSuccess (room : Room)
deriving DecidableEq

/-- Result of running one event handler. -/
structure Output where
  state : ServerState
  emits : List Emit
  response : Option Response
  crashed : Bool
deriving DecidableEq

/-- Members of the socket.io room `roomId` other than `sender`: the recipients
of `socket.to(roomId).emit(...)`. -/
def emitTargets (groups : List (Nat × List Nat)) (roomId sender : Nat) : List Nat :=
  ((mapGet groups roomId).getD []).filter (fun t => t ≠ sender)

/-- The effect of `socket.join(roomId)`: add `s` to the socket.io room
(a set, so a no-op when already a member; the room is created when absent). -/
def joinGroup (groups : List (Nat × List Nat)) (roomId s : Nat) : List (Nat × List Nat) :=
  let cur := (mapGet groups roomId).getD []
  mapSet groups roomId (if s ∈ cur then cur else cur ++ [s])

/-- The effect of `socket.leave(roomId)` for socket `t`. -/
def leaveGroup (groups : List (Nat × List Nat)) (roomId t : Nat) : List (Nat × List Nat) :=
  match mapGet groups roomId with
  | none => groups
  | some cur => mapSet groups roomId (cur.filter (fun x => x ≠ t))

/-- Transport-level removal of a disconnected socket from every socket.io room
(socket.io has already removed the socket from all rooms when the
`disconnect` event fires). -/
def removeSocket (groups : List (Nat × List Nat)) (s : Nat) : List (Nat × List Nat) :=
  groups.map (fun p => (p.1, p.2.filter (fun t => t ≠ s)))

/-- Handler of `socket.on('username', ...)`: stores the name on the socket. -/
def handleUsername (st : ServerState) (s : Nat) (name : String) : Output :=
  { state := { st with userData := mapSet st.userData s name },
    emits := [], response := none, crashed := false }

/-- Handler of `socket.on('createRoom', ...)`: fresh uuid, `socket.join`,
`rooms.set(roomId, {roomId, players: [{id, username}]})`, `callback(roomId)`.
The callback is invoked unconditionally, so `cb = false` (no callback passed)
makes the handler throw after the mutations. -/
def handleCreateRoom (st : ServerState) (s : Nat) (cb : Bool) : Output :=
  let roomId := st.nextId
  let groups1 := joinGroup st.groups roomId s
  let room : Room := { roomId := roomId, players := [{ id := s, username := mapGet st.userData s }] }
  let rooms1 := mapSet st.rooms roomId room
  { state :=
      { st with
        rooms := rooms1
        groups := groups1
        nextId := st.nextId + 1
        issued := st.issued ++ [roomId] },
    emits := [],
    response := if cb then some (Response.roomId roomId) else none,
    crashed := !cb }

/-- In the JS source the joinRoom handler reads `room.length` where `room` is
the object `{roomId, players}`; the object has no `length` property, so
`room.length` is `undefined`, and in JavaScript `undefined <= 0` evaluates
to `false`. -/
def undefLeZero : Bool := false

/-- Likewise `undefined >= 2` evaluates to `false` in JavaScript, so the
`room is full` branch of the joinRoom handler can never be taken. -/
def undefGeTwo : Bool := false

/-- Handler of `socket.on('joinRoom', ...)`.  On the error path the callback
is guarded (`if (callback) ...`); on the success path `callback(roomUpdate)`
is invoked unconditionally, so a missing callback throws after the store
mutation and before the `opponentJoined` emit. -/
def handleJoinRoom (st : ServerState) (s : Nat) (roomId : Nat) (cb : Bool) : Output :=
  match mapGet st.rooms roomId with
  | none =>
    { state := st, emits := [],
      response := if cb then some (Response.joinError "room does not exist") else none,
      crashed := false }
  | some room =>
    if undefLeZero then
      { state := st, emits := [],
        response := if cb then some (Response.joinError "room is empty") else none,
        crashed := false }
    else if undefGeTwo then
      { state := st, emits := [],
        response := if cb then some (Response.joinError "room is full") else none,
        crashed := false }
    else
      let groups1 := joinGroup st.groups roomId s
      let roomUpdate : Room :=
        { room with players := room.players ++ [{ id := s, username := mapGet st.userData s }] }
      let rooms1 := mapSet st.rooms roomId roomUpdate
      let st2 := { st with rooms := rooms1, groups := groups1 }
      if cb then
        { state := st2,
          emits := (emitTargets groups1 roomId s).map (fun t => Emit.opponentJoined t roomUpdate),
          response := some (Response.joinSuccess roomUpdate),
          crashed := false }
      else
        { state := st2, emits := [], response := none, crashed := true }

/-- Handler of `socket.on('move', ...)`: `socket.to(data.room).emit('move', data.move)`. -/
def handleMove (st : ServerState) (s : Nat) (roomId : Nat) (payload : String) : Output :=
  { state := st,
    emits := (emitTargets st.groups roomId s).map (fun t => Emit.move t payload),
    response := none, crashed := false }

/-- One iteration of the `forEach` in the disconnect handler: for a room the
disconnecting socket is a player of, delete the room when it has fewer than
2 players, otherwise emit `playerDisconnected` to the room (and keep it). -/
def disconnectFold (groups1 : List (Nat × List Nat)) (s : Nat)
    (acc : List (Nat × Room) × List Emit) (room : Room) : List (Nat × Room) × List Emit :=
  match room.players.find? (fun p => p.id = s) with
  | none => acc
  | some userInRoom =>
    if room.players.length < 2 then
      (mapDelete acc.1 room.roomId, acc.2)
    else
      (acc.1,
       acc.2 ++ (emitTargets groups1 room.roomId s).map
         (fun t => Emit.playerDisconnected t userInRoom))

/-- Handler of `socket.on('disconnect', ...)`: the room values are captured
first (`Array.from(rooms.values())`) and the map is mutated while iterating
over the captured array. -/
def handleDisconnect (st : ServerState) (s : Nat) : Output :=
  let groups1 := removeSocket st.groups s
  let gameRooms := st.rooms.map (fun p => p.2)
  let result := gameRooms.foldl (disconnectFold groups1 s) (st.rooms, [])
  { state := { st with rooms := result.1, groups := groups1 },
    emits := result.2, response := none, crashed := false }

/-- Handler of `socket.on('closeRoom', ...)`: broadcast `closeRoom` to the
room, fetch all member sockets, make each leave, delete the map entry. -/
def handleCloseRoom (st : ServerState) (s : Nat) (roomId : Nat) : Output :=
  let emits := (emitTargets st.groups roomId s).map (fun t => Emit.closeRoom t roomId)
  let clientSockets := (mapGet st.groups roomId).getD []
  let groups1 := clientSockets.foldl (fun g t => leaveGroup g roomId t) st.groups
  { state := { st with groups := groups1, rooms := mapDelete st.rooms roomId },
    emits := emits, response := none, crashed := false }

/-- A client-originated event, with `cb` recording whether the client passed
a response callback. -/
inductive Event where
  | username (s : Nat) (name : String)
  | createRoom (s : Nat) (cb : Bool)
  | joinRoom (s : Nat) (roomId : Nat) (cb : Bool)
  | move (s : Nat) (roomId : Nat) (payload : String)
  | closeRoom (s : Nat) (roomId : Nat)
  | disconnect (s : Nat)
deriving DecidableEq

/-- Dispatch one event to its handler. -/
def step (st : ServerState) : Event → Output
  | .username s name => handleUsername st s name
  | .createRoom s cb => handleCreateRoom st s cb
  | .joinRoom s r cb => handleJoinRoom st s r cb
  | .move s r payload => handleMove st s r payload
  | .closeRoom s r => handleCloseRoom st s r
  | .disconnect s => handleDisconnect st s

/-- The empty initial state (`const rooms = new Map()`). -/
def initState : ServerState :=
  { rooms := [], groups := [], userData := [], nextId := 0, issued := [] }

/-- Run a sequence of events from the initial state. -/
def run (events : List Event) : ServerState :=
  events.foldl (fun st e => (step st e).state) initState

/-- States reachable from the empty store by any event sequence. -/
inductive Reachable : ServerState → Prop where
  | init : Reachable initState
  | next : ∀ st e, Reachable st → Reachable (step st e).state

/-- Every room key and every issued room id lies strictly below the fresh-id
counter; this is what makes the next generated id collision-free. -/
def KeysBelow (st : ServerState) : Prop :=
  (∀ p ∈ st.rooms, p.1 < st.nextId) ∧ (∀ i ∈ st.issued, i < st.nextId)

/-- A joinRoom event whose sender is already listed in the named room. -/
def selfJoin (st : ServerState) : Event → Prop
  | .joinRoom s r _ =>
      ∃ room, mapGet st.rooms r = some room ∧ s ∈ room.players.map Participant.id
  | _ => False

/-- States reachable when no connection ever sends joinRoom for a room whose
player list already contains its own handle. -/
inductive ReachableNoRejoin : ServerState → Prop where
  | init : ReachableNoRejoin initState
  | next : ∀ st e, ReachableNoRejoin st → ¬ selfJoin st e →
      ReachableNoRejoin (step st e).state

/-- Every room's player list mentions each socket handle at most once. -/
def HandlesUnique (st : ServerState) : Prop :=
  ∀ p ∈ st.rooms, ((p.2).players.map Participant.id).Nodup

/-- Looking up the key just written returns the written value. -/
theorem mapGet_mapSet_self {α : Type} (m : List (Nat × α)) (k : Nat) (v : α) :
    mapGet (mapSet m k v) k = some v := by
  induction m with
  | nil => simp [mapSet, mapGet]
  | cons p rest ih =>
    by_cases h : p.1 = k
    · simp [mapSet, h, mapGet]
    · simp [mapSet, h, mapGet, ih]

/-- Looking up a deleted key returns nothing. -/
theorem mapGet_mapDelete_self {α : Type} (m : List (Nat × α)) (k : Nat) :
    mapGet (mapDelete m k) k = none := by
  induction m with
  | nil => simp [mapDelete, mapGet]
  | cons p rest ih =>
    by_cases h : p.1 = k
    · simp [mapDelete, h, ih]
    · simp [mapDelete, h, mapGet, ih]

/-- Deleting an absent key is the identity. -/
theorem mapDelete_of_get_none {α : Type} {m : List (Nat × α)} {k : Nat}
    (h : mapGet m k = none) : mapDelete m k = m := by
  induction m with
  | nil => simp [mapDelete]
  | cons p rest ih =>
    by_cases hp : p.1 = k
    · simp [mapGet, hp] at h
    · simp [mapGet, hp] at h
      simp [mapDelete, hp, ih h]

/-- Deleting twice equals deleting once. -/
theorem mapDelete_mapDelete {α : Type} (m : List (Nat × α)) (k : Nat) :
    mapDelete (mapDelete m k) k = mapDelete m k :=
  mapDelete_of_get_none (mapGet_mapDelete_self m k)

/-- An entry of `mapSet m k v` is an old entry or the written pair. -/
theorem mem_mapSet {α : Type} {m : List (Nat × α)} {k : Nat} {v : α} {p : Nat × α}
    (h : p ∈ mapSet m k v) : p ∈ m ∨ p = (k, v) := by
  induction m with
  | nil =>
    simp [mapSet] at h
    simp [h]
  | cons q rest ih =>
    by_cases hq : q.1 = k
    · simp [mapSet, hq] at h
      rcases h with h | h
      · right; simp [h]
      · left; simp [h]
    · simp [mapSet, hq] at h
      rcases h with h | h
      · left; simp [h]
      · rcases ih h with h' | h'
        · left; simp [h']
        · right; exact h'

/-- Deletion only removes entries. -/
theorem mem_mapDelete {α : Type} {m : List (Nat × α)} {k : Nat} {p : Nat × α}
    (h : p ∈ mapDelete m k) : p ∈ m := by
  induction m with
  | nil => simp [mapDelete] at h
  | cons q rest ih =>
    by_cases hq : q.1 = k
    · simp [mapDelete, hq] at h
      simp [ih h]
    · simp [mapDelete, hq] at h
      rcases h with h | h
      · simp [h]
      · simp [ih h]

/-- A successful lookup is a list membership. -/
theorem mapGet_mem {α : Type} {m : List (Nat × α)} {k : Nat} {v : α}
    (h : mapGet m k = some v) : (k, v) ∈ m := by
  induction m with
  | nil => simp [mapGet] at h
  | cons q rest ih =>
    by_cases hq : q.1 = k
    · simp [mapGet, hq] at h
      have : q = (k, v) := by
        cases q
        simp_all
      simp [this]
    · simp [mapGet, hq] at h
      simp [ih h]

/-- A key held by no entry looks up to nothing. -/
theorem mapGet_none_of_keys {α : Type} {m : List (Nat × α)} {k : Nat}
    (h : ∀ p ∈ m, p.1 ≠ k) : mapGet m k = none := by
  induction m with
  | nil => simp [mapGet]
  | cons q rest ih =>
    have hq : q.1 ≠ k := h q (by simp)
    simp [mapGet, hq]
    exact ih fun p hp => h p (by simp [hp])

/-- Claim C1, code evidence: a joinRoom request for a room whose stored player
list already has 2 entries is accepted, because the handler tests
`room.length` (undefined on the room object) instead of `room.players.length`:
starting from a store whose only room has the 2 players `0` and `1`, socket
`2` joins successfully, the response is the full-room success payload and the
stored player list grows to 3 — not the RoomFull error the claim requires. -/
theorem c1_full_room_join_accepted :
    mapGet (run [Event.createRoom 0 true, Event.joinRoom 1 0 true]).rooms 0
      = some { roomId := 0, players := [⟨0, none⟩, ⟨1, none⟩] } ∧
    (step (run [Event.createRoom 0 true, Event.joinRoom 1 0 true])
        (Event.joinRoom 2 0 true)).response
      = some (Response.joinSuccess
          { roomId := 0, players := [⟨0, none⟩, ⟨1, none⟩, ⟨2, none⟩] }) ∧
    mapGet (step (run [Event.createRoom 0 true, Event.joinRoom 1 0 true])
        (Event.joinRoom 2 0 true)).state.rooms 0
      = some { roomId := 0, players := [⟨0, none⟩, ⟨1, none⟩, ⟨2, none⟩] } :=
  ⟨rfl, rfl, rfl⟩

/-- Claim C2, code evidence: the create/join/join sequence below is a
create/join event sequence from the empty store that ends in an observation
point where the only room's player list has length 3, violating the claimed
never-more-than-2 invariant (the root cause is the `room.length` slip of C1). -/
theorem c2_three_player_room_reachable :
    (run [Event.createRoom 0 true, Event.joinRoom 1 0 true, Event.joinRoom 2 0 true]).rooms
      = [(0, { roomId := 0, players := [⟨0, none⟩, ⟨1, none⟩, ⟨2, none⟩] })] ∧
    ((run [Event.createRoom 0 true, Event.joinRoom 1 0 true, Event.joinRoom 2 0 true]).rooms.map
        (fun p => p.2.players.length)) = [3] :=
  ⟨rfl, rfl⟩

/-- Claim C3, counterexample: disconnecting player `0` from the 2-player room
`0` does emit exactly one `playerDisconnected` with the departed player's
snapshot to the remaining player `1`, but the room entry is NOT deleted from
the store — it survives with both players still listed, refuting the claim's
"the room's entry is deleted from the store" conjunct. -/
theorem c3_counterexample :
    (step (run [Event.createRoom 0 true, Event.joinRoom 1 0 true])
        (Event.disconnect 0)).emits
      = [Emit.playerDisconnected 1 ⟨0, none⟩] ∧
    (step (run [Event.createRoom 0 true, Event.joinRoom 1 0 true])
        (Event.disconnect 0)).state.rooms
      = [(0, { roomId := 0, players := [⟨0, none⟩, ⟨1, none⟩] })] :=
  ⟨rfl, rfl⟩

/-- Claim C7, counterexample: a joinRoom request with no callback that reaches
the success path throws (`callback(roomUpdate)` is invoked unguarded), so the
handler does not complete silently on the success path. -/
theorem c7_counterexample :
    (step (run [Event.createRoom 0 true]) (Event.joinRoom 1 0 false)).crashed = true :=
  rfl

/-- Claim C9, counterexample: the creator of room `0` (socket `0`) sends
joinRoom for its own room and is appended a second time, so the reachable
store holds a room whose player list carries the handle `0` twice. -/
theorem c9_counterexample :
    mapGet (run [Event.createRoom 0 true, Event.joinRoom 0 0 true]).rooms 0
      = some { roomId := 0, players := [⟨0, none⟩, ⟨0, none⟩] } ∧
    ¬ (([⟨0, none⟩, ⟨0, none⟩] : List Participant).map Participant.id).Nodup :=
  ⟨rfl, by decide⟩

/-- Deletion distributes over append. -/
theorem mapDelete_append {α : Type} (l₁ l₂ : List (Nat × α)) (k : Nat) :
    mapDelete (l₁ ++ l₂) k = mapDelete l₁ k ++ mapDelete l₂ k := by
  induction l₁ with
  | nil => simp [mapDelete]
  | cons q rest ih =>
    by_cases hq : q.1 = k
    · simp [mapDelete, hq, ih]
    · simp [mapDelete, hq, ih]

/-- Lookup after the transport-level removal of a disconnected socket. -/
theorem mapGet_removeSocket (g : List (Nat × List Nat)) (s k : Nat) :
    mapGet (removeSocket g s) k
      = (mapGet g k).map (fun l => l.filter (fun t => t ≠ s)) := by
  induction g with
  | nil => simp [removeSocket, mapGet]
  | cons p rest ih =>
    by_cases hp : p.1 = k
    · simp [removeSocket, mapGet, hp]
    · simpa [removeSocket, mapGet, hp] using ih

/-- Claim C4: a joinRoom request naming a roomId with no entry in the room
store is answered with the `{error: true, message: 'room does not exist'}`
payload (the RoomNotFound error) and the whole server state — in particular
the room store — is left unchanged. -/
theorem c4_join_nonexistent_room (st : ServerState) (s r : Nat)
    (h : mapGet st.rooms r = none) :
    step st (Event.joinRoom s r true)
      = { state := st, emits := [],
          response := some (Response.joinError "room does not exist"),
          crashed := false } := by
  simp [step, handleJoinRoom, h]

/-- Witness for C4 at the empty store and roomId 5. -/
theorem c4_join_nonexistent_room_witness :
    mapGet initState.rooms 5 = none ∧
    step initState (Event.joinRoom 0 5 true)
      = { state := initState, emits := [],
          response := some (Response.joinError "room does not exist"),
          crashed := false } :=
  ⟨rfl, c4_join_nonexistent_room initState 0 5 rfl⟩

/-- Claim C8: a move event from socket `s` naming room `r` leaves the state
untouched, never errors, and its payload is delivered, unmodified, to exactly
the sockets currently in the socket.io room `r` other than the sender — so to
no socket of any other room, and to nobody (a silent no-op) when the room has
no other members. -/
theorem c8_move_relay (st : ServerState) (s r : Nat) (payload : String) :
    (step st (Event.move s r payload)).state = st ∧
    (step st (Event.move s r payload)).response = none ∧
    (step st (Event.move s r payload)).crashed = false ∧
    ∀ t p, Emit.move t p ∈ (step st (Event.move s r payload)).emits ↔
      (t ∈ (mapGet st.groups r).getD [] ∧ t ≠ s ∧ p = payload) := by
  refine ⟨rfl, rfl, rfl, fun t p => ?_⟩
  simp only [step, handleMove, emitTargets, List.mem_map, List.mem_filter,
    decide_eq_true_eq, Emit.move.injEq]
  constructor
  · rintro ⟨a, ⟨ha, hne⟩, rfl, rfl⟩
    exact ⟨ha, hne, rfl⟩
  · rintro ⟨ha, hne, rfl⟩
    exact ⟨t, ⟨ha, hne⟩, rfl, rfl⟩

/-- Witness for C8 in a 2-player room: the move of socket 0 reaches socket 1. -/
theorem c8_move_relay_witness :
    (step (run [Event.createRoom 0 true, Event.joinRoom 1 0 true])
        (Event.move 0 0 "e2e4")).state
      = run [Event.createRoom 0 true, Event.joinRoom 1 0 true] ∧
    (Emit.move 1 "e2e4" ∈ (step (run [Event.createRoom 0 true, Event.joinRoom 1 0 true])
        (Event.move 0 0 "e2e4")).emits ↔
      ((1 : Nat) ∈ (mapGet (run [Event.createRoom 0 true, Event.joinRoom 1 0 true]).groups 0).getD []
        ∧ (1 : Nat) ≠ 0 ∧ "e2e4" = "e2e4")) :=
  ⟨(c8_move_relay (run [Event.createRoom 0 true, Event.joinRoom 1 0 true]) 0 0 "e2e4").1,
   (c8_move_relay (run [Event.createRoom 0 true, Event.joinRoom 1 0 true]) 0 0 "e2e4").2.2.2 1 "e2e4"⟩

/-- Claim C10: the closeRoom handler performs no membership or authorization
check — for every state, every sender socket and every roomId, the store
entry for that roomId is removed (the rooms map becomes `mapDelete rooms r`,
under which `r` no longer resolves), without error. -/
theorem c10_closeRoom_no_auth (st : ServerState) (s r : Nat) :
    (step st (Event.closeRoom s r)).state.rooms = mapDelete st.rooms r ∧
    mapGet (step st (Event.closeRoom s r)).state.rooms r = none ∧
    (step st (Event.closeRoom s r)).crashed = false := by
  refine ⟨rfl, ?_, rfl⟩
  show mapGet (mapDelete st.rooms r) r = none
  exact mapGet_mapDelete_self st.rooms r

/-- Witness for C10: socket 7, which is not a participant of room 0, closes it. -/
theorem c10_closeRoom_no_auth_witness :
    (step (run [Event.createRoom 0 true]) (Event.closeRoom 7 0)).state.rooms
      = mapDelete (run [Event.createRoom 0 true]).rooms 0 ∧
    mapGet (step (run [Event.createRoom 0 true]) (Event.closeRoom 7 0)).state.rooms 0 = none ∧
    (step (run [Event.createRoom 0 true]) (Event.closeRoom 7 0)).crashed = false :=
  c10_closeRoom_no_auth (run [Event.createRoom 0 true]) 7 0

/-- The state after a joinRoom that found the room: whether or not a callback
was passed, the store maps the room id to the old room with the joiner's
snapshot appended. -/
theorem joinRoom_state_rooms (st : ServerState) (s r : Nat) (cb : Bool) {room : Room}
    (hm : mapGet st.rooms r = some room) :
    (step st (Event.joinRoom s r cb)).state.rooms
      = mapSet st.rooms r
          { room with players := room.players ++ [{ id := s, username := mapGet st.userData s }] } := by
  cases cb <;> simp [step, handleJoinRoom, hm, undefLeZero, undefGeTwo]

/-- One disconnect-loop iteration can only keep or delete store entries. -/
theorem disconnectFold_acc_mem (groups1 : List (Nat × List Nat)) (s : Nat)
    (acc : List (Nat × Room) × List Emit) (room : Room) {p : Nat × Room}
    (hp : p ∈ (disconnectFold groups1 s acc room).1) : p ∈ acc.1 := by
  unfold disconnectFold at hp
  split at hp
  · exact hp
  · split at hp
    · exact mem_mapDelete hp
    · exact hp

/-- The whole disconnect loop can only keep or delete store entries. -/
theorem disconnectFold_subset (groups1 : List (Nat × List Nat)) (s : Nat) :
    ∀ (l : List Room) (acc : List (Nat × Room) × List Emit) (p : Nat × Room),
      p ∈ (l.foldl (disconnectFold groups1 s) acc).1 → p ∈ acc.1 := by
  intro l
  induction l with
  | nil =>
    intro acc p hp
    exact hp
  | cons room rest ih =>
    intro acc p hp
    rw [List.foldl_cons] at hp
    exact disconnectFold_acc_mem groups1 s acc room (ih _ p hp)

/-- Every handler keeps room keys and issued ids below the fresh-id counter. -/
theorem keysBelow_step (st : ServerState) (e : Event) (h : KeysBelow st) :
    KeysBelow (step st e).state := by
  obtain ⟨hr, hi⟩ := h
  cases e with
  | username s name => exact ⟨hr, hi⟩
  | move s r payload => exact ⟨hr, hi⟩
  | createRoom s cb =>
    constructor
    · intro p hp
      rcases mem_mapSet hp with hp' | hp'
      · exact Nat.lt_succ_of_lt (hr p hp')
      · rw [hp']
        exact Nat.lt_succ_self _
    · intro i hii
      rcases List.mem_append.mp hii with hii' | hii'
      · exact Nat.lt_succ_of_lt (hi i hii')
      · rw [List.mem_singleton.mp hii']
        exact Nat.lt_succ_self _
  | joinRoom s r cb =>
    cases hm : mapGet st.rooms r with
    | none =>
      cases cb <;> simp only [step, handleJoinRoom, hm] <;> exact ⟨hr, hi⟩
    | some room =>
      have hni : (step st (Event.joinRoom s r cb)).state.nextId = st.nextId := by
        cases cb <;> simp [step, handleJoinRoom, hm, undefLeZero, undefGeTwo]
      have his : (step st (Event.joinRoom s r cb)).state.issued = st.issued := by
        cases cb <;> simp [step, handleJoinRoom, hm, undefLeZero, undefGeTwo]
      unfold KeysBelow
      rw [joinRoom_state_rooms st s r cb hm, hni, his]
      constructor
      · intro p hp
        rcases mem_mapSet hp with hp' | hp'
        · exact hr p hp'
        · rw [hp']
          exact hr (r, room) (mapGet_mem hm)
      · exact hi
  | closeRoom s r =>
    exact ⟨fun p hp => hr p (mem_mapDelete hp), hi⟩
  | disconnect s =>
    exact ⟨fun p hp => hr p (disconnectFold_subset _ s _ _ p hp), hi⟩

/-- Every reachable state keeps room keys and issued ids below the counter. -/
theorem reachable_keysBelow {st : ServerState} (h : Reachable st) : KeysBelow st := by
  induction h with
  | init =>
    constructor
    · intro p hp
      simp [initState] at hp
    · intro i hii
      simp [initState] at hii
  | next st' e _ ih => exact keysBelow_step st' e ih

/-- Claim C5: from any reachable state, a createRoom request (with its reply
callback, as the client always passes one) succeeds: the generated roomId was
never issued before, is not a key of the current store, the new store maps it
to a room whose only participant is the creator's handle with a snapshot of
its current display name, that roomId is returned to the caller, and the
handler does not throw. -/
theorem c5_createRoom_succeeds (st : ServerState) (s : Nat) (h : Reachable st) :
    (step st (Event.createRoom s true)).response = some (Response.roomId st.nextId) ∧
    st.nextId ∉ st.issued ∧
    mapGet st.rooms st.nextId = none ∧
    mapGet (step st (Event.createRoom s true)).state.rooms st.nextId
      = some { roomId := st.nextId,
               players := [{ id := s, username := mapGet st.userData s }] } ∧
    (step st (Event.createRoom s true)).crashed = false := by
  obtain ⟨hr, hi⟩ := reachable_keysBelow h
  refine ⟨rfl, ?_, ?_, ?_, rfl⟩
  · intro hmem
    exact absurd (hi _ hmem) (Nat.lt_irrefl _)
  · exact mapGet_none_of_keys fun p hp => Nat.ne_of_lt (hr p hp)
  · show mapGet (mapSet st.rooms st.nextId _) st.nextId = some _
    exact mapGet_mapSet_self st.rooms st.nextId _

/-- Witness for C5 at the empty store: socket 3 creates room 0. -/
theorem c5_createRoom_succeeds_witness :
    (step initState (Event.createRoom 3 true)).response = some (Response.roomId 0) ∧
    0 ∉ initState.issued ∧
    mapGet initState.rooms 0 = none ∧
    mapGet (step initState (Event.createRoom 3 true)).state.rooms 0
      = some { roomId := 0, players := [{ id := 3, username := none }] } ∧
    (step initState (Event.createRoom 3 true)).crashed = false :=
  c5_createRoom_succeeds initState 3 Reachable.init

/-- Every handler that is not a self-rejoin keeps handles unique in each room. -/
theorem handlesUnique_step (st : ServerState) (e : Event) (hs : ¬ selfJoin st e)
    (h : HandlesUnique st) : HandlesUnique (step st e).state := by
  cases e with
  | username s name => exact h
  | move s r payload => exact h
  | createRoom s cb =>
    intro p hp
    rcases mem_mapSet hp with hp' | hp'
    · exact h p hp'
    · rw [hp']
      simp
  | joinRoom s r cb =>
    cases hm : mapGet st.rooms r with
    | none =>
      intro p hp
      have : (step st (Event.joinRoom s r cb)).state.rooms = st.rooms := by
        cases cb <;> simp [step, handleJoinRoom, hm]
      rw [this] at hp
      exact h p hp
    | some room =>
      intro p hp
      rw [joinRoom_state_rooms st s r cb hm] at hp
      rcases mem_mapSet hp with hp' | hp'
      · exact h p hp'
      · rw [hp']
        have hnd : (room.players.map Participant.id).Nodup := h (r, room) (mapGet_mem hm)
        have hsn : s ∉ room.players.map Participant.id := fun hmem => hs ⟨room, hm, hmem⟩
        rw [List.map_append]
        exact List.Nodup.append hnd (by simp) (by simpa [List.disjoint_singleton] using hsn)
  | closeRoom s r =>
    intro p hp
    exact h p (mem_mapDelete hp)
  | disconnect s =>
    intro p hp
    exact h p (disconnectFold_subset _ s _ _ p hp)

/-- Claim C9 amended: along any event sequence in which no connection sends
joinRoom for a room whose player list already holds its own handle, every room
of the store keeps pairwise-distinct handles in its player list.  (The
unrestricted claim is false: a creator re-joining its own room is appended a
second time, see the counterexample.) -/
theorem c9_amended_unique_handles (st : ServerState) (h : ReachableNoRejoin st) :
    ∀ (k : Nat) (room : Room), mapGet st.rooms k = some room →
      (room.players.map Participant.id).Nodup := by
  have hu : HandlesUnique st := by
    induction h with
    | init =>
      intro p hp
      simp [initState] at hp
    | next st' e _ hns ih => exact handlesUnique_step st' e hns ih
  exact fun k room hm => hu (k, room) (mapGet_mem hm)

/-- Witness for the amended C9: after a create and a join by a distinct
socket, the room's handle list `[0, 1]` is duplicate-free. -/
theorem c9_amended_unique_handles_witness :
    mapGet (step (step initState (Event.createRoom 0 true)).state
        (Event.joinRoom 1 0 true)).state.rooms 0
      = some { roomId := 0, players := [⟨0, none⟩, ⟨1, none⟩] } ∧
    (([⟨0, none⟩, ⟨1, none⟩] : List Participant).map Participant.id).Nodup :=
  ⟨rfl,
   c9_amended_unique_handles
     (step (step initState (Event.createRoom 0 true)).state (Event.joinRoom 1 0 true)).state
     (ReachableNoRejoin.next _ _
       (ReachableNoRejoin.next _ _ ReachableNoRejoin.init (fun hf => hf))
       (by
         rintro ⟨room, hm, hmem⟩
         have hm2 : mapGet (step initState (Event.createRoom 0 true)).state.rooms 0
             = some { roomId := 0, players := [⟨0, none⟩] } := rfl
         rw [Option.some_inj.mp (hm.symm.trans hm2)] at hmem
         exact absurd hmem (by decide)))
     0 { roomId := 0, players := [⟨0, none⟩, ⟨1, none⟩] } rfl⟩

/-- Claim C7 amended: a joinRoom request with no callback is tolerated only on
the failure path, where the handler completes silently and changes nothing; on
the success path the handler invokes the callback unconditionally, so a
missing callback makes it throw (after the store mutation, and skipping the
`opponentJoined` notification). -/
theorem c7_amended_missing_callback (st : ServerState) (s r : Nat) :
    (mapGet st.rooms r = none →
      step st (Event.joinRoom s r false)
        = { state := st, emits := [], response := none, crashed := false }) ∧
    (∀ room, mapGet st.rooms r = some room →
      (step st (Event.joinRoom s r false)).crashed = true ∧
      (step st (Event.joinRoom s r false)).emits = []) := by
  constructor
  · intro h
    simp [step, handleJoinRoom, h]
  · intro room h
    constructor <;> simp [step, handleJoinRoom, h, undefLeZero, undefGeTwo]

/-- Witness for the amended C7: silent failure path at the empty store, and a
throwing success path in a store holding room 0. -/
theorem c7_amended_missing_callback_witness :
    (step initState (Event.joinRoom 0 0 false)
      = { state := initState, emits := [], response := none, crashed := false }) ∧
    (step (run [Event.createRoom 0 true]) (Event.joinRoom 1 0 false)).crashed = true :=
  ⟨(c7_amended_missing_callback initState 0 0).1 rfl,
   ((c7_amended_missing_callback (run [Event.createRoom 0 true]) 1 0).2
      { roomId := 0, players := [⟨0, none⟩] } rfl).1⟩

/-- Removing one socket and then another from a room's member list composes
to a single filter over the member list. -/
theorem mapGet_leaveAll (r : Nat) :
    ∀ (l : List Nat) (g : List (Nat × List Nat)) (cur : List Nat),
      mapGet g r = some cur →
      mapGet (l.foldl (fun g t => leaveGroup g r t) g) r
        = some (cur.filter (fun x => x ∉ l)) := by
  intro l
  induction l with
  | nil =>
    intro g cur h
    simpa using h
  | cons t rest ih =>
    intro g cur h
    have hstep : mapGet (leaveGroup g r t) r = some (cur.filter (fun x => x ≠ t)) := by
      unfold leaveGroup
      rw [h]
      exact mapGet_mapSet_self g r _
    rw [List.foldl_cons, ih _ _ hstep]
    congr 1
    rw [List.filter_filter]
    apply List.filter_congr
    intro x _
    simp [List.mem_cons, not_or, Bool.and_comm]

/-- Making every current member of a room leave empties the member list. -/
theorem mapGet_leaveAll_self (g : List (Nat × List Nat)) (r : Nat) (cur : List Nat)
    (h : mapGet g r = some cur) :
    mapGet (cur.foldl (fun g t => leaveGroup g r t) g) r = some [] := by
  rw [mapGet_leaveAll r cur g cur h]
  congr 1
  rw [List.filter_eq_nil_iff]
  intro a ha
  simp [ha]

/-- After a closeRoom the socket.io room for that id has no members left. -/
theorem closeRoom_group_emptied (st : ServerState) (s r : Nat) :
    (mapGet (step st (Event.closeRoom s r)).state.groups r).getD [] = [] := by
  show (mapGet (((mapGet st.groups r).getD []).foldl
      (fun g t => leaveGroup g r t) st.groups) r).getD [] = []
  cases h : mapGet st.groups r with
  | none => simp [h]
  | some cur =>
    simp only [h, Option.getD_some]
    rw [mapGet_leaveAll_self st.groups r cur h]
    rfl

/-- Closing a room that is absent from the store and has no socket.io members
changes nothing, emits nothing and throws nothing. -/
theorem closeRoom_noop (st : ServerState) (s r : Nat)
    (h1 : mapGet st.rooms r = none) (h2 : (mapGet st.groups r).getD [] = []) :
    step st (Event.closeRoom s r)
      = { state := st, emits := [], response := none, crashed := false } := by
  simp only [step, handleCloseRoom, emitTargets]
  rw [h2, mapDelete_of_get_none h1]
  simp

/-- Claim C6: closeRoom is idempotent.  Closing a roomId that is absent from
the store (and whose socket.io room is empty, as a previous close leaves it)
is a complete no-op, and a second closeRoom for the same roomId — from any
socket — leaves the state exactly as the first left it, delivers no
notification to any former participant, and raises no error. -/
theorem c6_closeRoom_idempotent (st : ServerState) (s sb r : Nat) :
    (mapGet st.rooms r = none → (mapGet st.groups r).getD [] = [] →
      step st (Event.closeRoom s r)
        = { state := st, emits := [], response := none, crashed := false }) ∧
    step (step st (Event.closeRoom s r)).state (Event.closeRoom sb r)
      = { state := (step st (Event.closeRoom s r)).state, emits := [],
          response := none, crashed := false } :=
  ⟨closeRoom_noop st s r,
   closeRoom_noop (step st (Event.closeRoom s r)).state sb r
     (mapGet_mapDelete_self st.rooms r) (closeRoom_group_emptied st s r)⟩

/-- Witness for C6: closing the never-created room 9 at the empty store, and
closing room 0 twice after its creation. -/
theorem c6_closeRoom_idempotent_witness :
    (step initState (Event.closeRoom 0 9)
      = { state := initState, emits := [], response := none, crashed := false }) ∧
    step (step (run [Event.createRoom 0 true]) (Event.closeRoom 0 0)).state
        (Event.closeRoom 1 0)
      = { state := (step (run [Event.createRoom 0 true]) (Event.closeRoom 0 0)).state,
          emits := [], response := none, crashed := false } :=
  ⟨(c6_closeRoom_idempotent initState 0 0 9).1 rfl rfl,
   (c6_closeRoom_idempotent (run [Event.createRoom 0 true]) 0 1 0).2⟩

/-- A player scan misses a socket that is in none of the entries. -/
theorem find_id_eq_none {players : List Participant} {s : Nat}
    (h : ∀ q ∈ players, q.id ≠ s) :
    players.find? (fun p => p.id = s) = none := by
  rw [List.find?_eq_none]
  intro q hq
  simp [h q hq]

/-- Filtering a socket out twice is the same as filtering it out once. -/
theorem filter_ne_filter_ne (l : List Nat) (s : Nat) :
    (l.filter (fun x => x ≠ s)).filter (fun x => x ≠ s)
      = l.filter (fun x => x ≠ s) := by
  rw [List.filter_filter]
  apply List.filter_congr
  intro x _
  simp

/-- Rooms that do not contain the disconnecting socket are skipped unchanged
by the disconnect loop. -/
theorem disconnectFold_skip (groups1 : List (Nat × List Nat)) (s : Nat) :
    ∀ (l : List Room) (acc : List (Nat × Room) × List Emit),
      (∀ room ∈ l, ∀ q ∈ room.players, q.id ≠ s) →
      l.foldl (disconnectFold groups1 s) acc = acc := by
  intro l
  induction l with
  | nil =>
    intro acc _
    rfl
  | cons room rest ih =>
    intro acc h
    rw [List.foldl_cons]
    have hone : disconnectFold groups1 s acc room = acc := by
      unfold disconnectFold
      rw [find_id_eq_none (h room (by simp))]
    rw [hone]
    exact ih acc fun room' hr => h room' (by simp [hr])

/-- Claim C3 amended: when a socket that is one of the 2 players of a room
disconnects, the handler emits exactly one `playerDisconnected` event, to the
remaining member of the socket.io room, carrying the departed player's stored
snapshot — but the room's entry is NOT deleted: the store is left exactly as
it was.  Only when the disconnecting socket is the sole player of a room is
the entry deleted, and then nothing is emitted.  (The original claim's
"2-participant disconnect deletes the room" conjunct is refuted by the
counterexample.) -/
theorem c3_amended_disconnect (st : ServerState) (s : Nat) :
    (∀ (pre post : List (Nat × Room)) (k : Nat) (room : Room) (u : Participant)
        (t : Nat) (g : List Nat),
      st.rooms = pre ++ (k, room) :: post →
      room.roomId = k →
      room.players.length = 2 →
      room.players.find? (fun p => p.id = s) = some u →
      mapGet st.groups k = some g →
      g.filter (fun x => x ≠ s) = [t] →
      (∀ q ∈ pre ++ post, ∀ pl ∈ q.2.players, pl.id ≠ s) →
      (step st (Event.disconnect s)).emits = [Emit.playerDisconnected t u] ∧
      (step st (Event.disconnect s)).state.rooms = st.rooms) ∧
    (∀ (pre post : List (Nat × Room)) (k : Nat) (room : Room) (p1 : Participant),
      st.rooms = pre ++ (k, room) :: post →
      room.roomId = k →
      room.players = [p1] →
      p1.id = s →
      (∀ q ∈ pre ++ post, q.1 ≠ k) →
      (∀ q ∈ pre ++ post, ∀ pl ∈ q.2.players, pl.id ≠ s) →
      (step st (Event.disconnect s)).emits = [] ∧
      (step st (Event.disconnect s)).state.rooms = pre ++ post) := by
  constructor
  · intro pre post k room u t g hsplit hid hlen hfind hg hfilter hothers
    have hgroups1 : mapGet (removeSocket st.groups s) k
        = some (g.filter (fun x => x ≠ s)) := by
      rw [mapGet_removeSocket, hg]
      rfl
    have hpre : ∀ room' ∈ pre.map (fun p => p.2), ∀ q ∈ room'.players, q.id ≠ s := by
      intro room' hr' q hq
      rcases List.mem_map.mp hr' with ⟨p, hp, rfl⟩
      exact hothers p (by simp [hp]) q hq
    have hpost : ∀ room' ∈ post.map (fun p => p.2), ∀ q ∈ room'.players, q.id ≠ s := by
      intro room' hr' q hq
      rcases List.mem_map.mp hr' with ⟨p, hp, rfl⟩
      exact hothers p (by simp [hp]) q hq
    have hroomstep : ∀ (rs : List (Nat × Room)) (es : List Emit),
        disconnectFold (removeSocket st.groups s) s (rs, es) room
          = (rs, es ++ [Emit.playerDisconnected t u]) := by
      intro rs es
      simp only [disconnectFold, hfind]
      rw [if_neg (by simp [hlen])]
      unfold emitTargets
      rw [hid, hgroups1]
      simp only [Option.getD_some]
      rw [filter_ne_filter_ne, hfilter]
      rfl
    have hfold : ((pre ++ (k, room) :: post).map (fun p => p.2)).foldl
        (disconnectFold (removeSocket st.groups s) s) (pre ++ (k, room) :: post, [])
        = (pre ++ (k, room) :: post, [Emit.playerDisconnected t u]) := by
      rw [List.map_append, List.map_cons, List.foldl_append,
        disconnectFold_skip _ _ _ _ hpre, List.foldl_cons, hroomstep,
        List.nil_append, disconnectFold_skip _ _ _ _ hpost]
    constructor
    · show ((st.rooms.map (fun p => p.2)).foldl
          (disconnectFold (removeSocket st.groups s) s) (st.rooms, [])).2
        = [Emit.playerDisconnected t u]
      rw [hsplit, hfold]
    · show ((st.rooms.map (fun p => p.2)).foldl
          (disconnectFold (removeSocket st.groups s) s) (st.rooms, [])).1
        = st.rooms
      rw [hsplit, hfold]
  · intro pre post k room p1 hsplit hid hplayers hp1 hkeys hothers
    have hpre : ∀ room' ∈ pre.map (fun p => p.2), ∀ q ∈ room'.players, q.id ≠ s := by
      intro room' hr' q hq
      rcases List.mem_map.mp hr' with ⟨p, hp, rfl⟩
      exact hothers p (by simp [hp]) q hq
    have hpost : ∀ room' ∈ post.map (fun p => p.2), ∀ q ∈ room'.players, q.id ≠ s := by
      intro room' hr' q hq
      rcases List.mem_map.mp hr' with ⟨p, hp, rfl⟩
      exact hothers p (by simp [hp]) q hq
    have hfind : room.players.find? (fun p => p.id = s) = some p1 := by
      rw [hplayers]
      simp [List.find?_cons, hp1]
    have hroomstep : ∀ (rs : List (Nat × Room)) (es : List Emit),
        disconnectFold (removeSocket st.groups s) s (rs, es) room
          = (mapDelete rs k, es) := by
      intro rs es
      simp only [disconnectFold, hfind]
      rw [if_pos (by simp [hplayers]), hid]
    have hdelpre : mapDelete pre k = pre :=
      mapDelete_of_get_none (mapGet_none_of_keys fun p hp => hkeys p (by simp [hp]))
    have hdelpost : mapDelete post k = post :=
      mapDelete_of_get_none (mapGet_none_of_keys fun p hp => hkeys p (by simp [hp]))
    have hdel : mapDelete (pre ++ (k, room) :: post) k = pre ++ post := by
      rw [mapDelete_append, hdelpre]
      congr 1
      show mapDelete ((k, room) :: post) k = post
      simp only [mapDelete, if_pos rfl]
      exact hdelpost
    have hfold : ((pre ++ (k, room) :: post).map (fun p => p.2)).foldl
        (disconnectFold (removeSocket st.groups s) s) (pre ++ (k, room) :: post, [])
        = (pre ++ post, []) := by
      rw [List.map_append, List.map_cons, List.foldl_append,
        disconnectFold_skip _ _ _ _ hpre, List.foldl_cons, hroomstep, hdel,
        disconnectFold_skip _ _ _ _ hpost]
    constructor
    · show ((st.rooms.map (fun p => p.2)).foldl
          (disconnectFold (removeSocket st.groups s) s) (st.rooms, [])).2
        = []
      rw [hsplit, hfold]
    · show ((st.rooms.map (fun p => p.2)).foldl
          (disconnectFold (removeSocket st.groups s) s) (st.rooms, [])).1
        = pre ++ post
      rw [hsplit, hfold]

/-- Witness for the amended C3: socket 0 disconnects from the 2-player room 0
(one notification to socket 1, store untouched), and from a 1-player room
(entry deleted, no notification). -/
theorem c3_amended_disconnect_witness :
    ((step (run [Event.createRoom 0 true, Event.joinRoom 1 0 true])
        (Event.disconnect 0)).emits = [Emit.playerDisconnected 1 ⟨0, none⟩] ∧
     (step (run [Event.createRoom 0 true, Event.joinRoom 1 0 true])
        (Event.disconnect 0)).state.rooms
       = (run [Event.createRoom 0 true, Event.joinRoom 1 0 true]).rooms) ∧
    ((step (run [Event.createRoom 0 true]) (Event.disconnect 0)).emits = [] ∧
     (step (run [Event.createRoom 0 true]) (Event.disconnect 0)).state.rooms = []) :=
  ⟨(c3_amended_disconnect (run [Event.createRoom 0 true, Event.joinRoom 1 0 true]) 0).1
     [] [] 0 { roomId := 0, players := [⟨0, none⟩, ⟨1, none⟩] } ⟨0, none⟩ 1 [0, 1]
     rfl rfl rfl rfl rfl rfl (by simp),
   (c3_amended_disconnect (run [Event.createRoom 0 true]) 0).2
     [] [] 0 { roomId := 0, players := [⟨0, none⟩] } ⟨0, none⟩
     rfl rfl rfl rfl (by simp) (by simp)⟩

end MultiplayerChess
